import Mathlib

/-!
Shallow embedding of `src/cleaner.py` (qa317/atr-datasetcleaner).

The program has two components:
* `get_pii_columns_from_xlsform` (Schema Resolver): given the fetched
  `survey` sheet (a table of records), it locates the `dataset` and `name`
  columns case-insensitively and returns the `name` values of every row
  whose `dataset` value, coerced to string and lower-cased, is `"pii"`.
* `mask_excel_file` (Dataset Masker): given a workbook file path and a list
  of PII column names, it writes an anonymized copy of the workbook where
  every non-missing cell of a PII-named column is replaced by a constant.

Python strings are modelled as Lean `String`s with an explicit `strLower`
(`str.lower`, mapping `Char.toLower` over the code points).  The local
filesystem is modelled as an association list from paths to file contents;
cells are `Option PyVal` with `none` for pandas' missing-value sentinel.
-/

set_option autoImplicit false

namespace Cleaner

/-- Python `str.lower` (per code point), kept transparent so that its
`data` is definitionally `List.map Char.toLower`. -/
def strLower (s : String) : String :=
  String.mk (s.data.map Char.toLower)

/-- Index of the last occurrence of `c` in `cs`, or `none`: Python
`str.rfind` restricted to a one-character needle (with `-1` as `none`). -/
def lastIndexOf : List Char → Char → Option Nat
  | [], _ => none
  | a :: as, c =>
    match lastIndexOf as c with
    | some i => some (i + 1)
    | none => if a = c then some 0 else none

/-- The index at which `os.path.splitext` splits `cs`, or `none` when it
does not split: the last `'.'`, provided it lies strictly after the last
`'/'` and some character between them is not a dot (so that a leading-dot
basename like `.bashrc` is not treated as an extension). -/
def splitextIdx (cs : List Char) : Option Nat :=
  match lastIndexOf cs '.' with
  | none => none
  | some d =>
    let start : Nat :=
      match lastIndexOf cs '/' with
      | none => 0
      | some s => s + 1
    if start ≤ d ∧ ((cs.drop start).take (d - start)).any (fun ch => ch ≠ '.') then
      some d
    else
      none

/-- Python `os.path.splitext`: split a path into `(root, ext)` with
`root ++ ext = p` and `ext` either empty or starting at the last dot of the
basename. -/
def splitext (p : String) : String × String :=
  match splitextIdx p.data with
  | none => (p, "")
  | some d => (String.mk (p.data.take d), String.mk (p.data.drop d))

/-- A Python value as it appears in a spreadsheet cell: a string or an
integer (the two shapes relevant to the schema sheet).  `toStr` mirrors
Python `str()` on these. -/
inductive PyVal where
  | s (v : String)
  | i (n : Int)
deriving DecidableEq, Repr

/-- Python `str()` on a `PyVal`. -/
def PyVal.toStr : PyVal → String
  | .s v => v
  | .i n => toString n

/-- The DataFrame built from `ws.get_all_records()`: a header of column
names and a list of rows aligned with the header. -/
structure Frame where
  header : List String
  rows : List (List PyVal)
deriving DecidableEq, Repr

/-- Cell of a record row at column index `i`; rows are header-aligned, so
the default is never hit on well-formed frames. -/
def cellAt (row : List PyVal) (i : Nat) : PyVal :=
  row.getD i (.s "")

/-- The dict comprehension `{c.lower(): c for c in xlsfrm.columns}` looked
up at `key`: the *last* column whose lower-cased name equals `key` wins,
or `none` when no column matches. -/
def colsLowerGet (header : List String) (key : String) : Option String :=
  header.foldl (fun acc c => if strLower c = key then some c else acc) none

/-- Error raised by the Schema Resolver when the `survey` sheet lacks a
required column (a `ValueError` in the Python source; the spec calls it
`SchemaError`). -/
inductive SchemaError where
  | missingColumns
deriving DecidableEq, Repr

/-- Core of `get_pii_columns_from_xlsform` (src/cleaner.py lines 16-30),
starting from the fetched records: resolve the `dataset` and `name`
columns case-insensitively, fail if either is missing, then return the
`name` value of every row whose `dataset` value, coerced to string and
lower-cased, equals `"pii"`. -/
def get_pii_columns_from_xlsform (xlsfrm : Frame) : Except SchemaError (List PyVal) :=
  match colsLowerGet xlsfrm.header "dataset", colsLowerGet xlsfrm.header "name" with
  | some dataset_col, some name_col =>
    let di := (xlsfrm.header.indexOf? dataset_col).getD 0
    let ni := (xlsfrm.header.indexOf? name_col).getD 0
    .ok ((xlsfrm.rows.filter
        (fun r => strLower (cellAt r di).toStr = "pii")).map
      (fun r => cellAt r ni))
  | _, _ => .error .missingColumns

/-- One column of a sheet as pandas sees it: a name and the cells below
it, `none` for a missing (NaN) cell. -/
structure Column where
  name : String
  cells : List (Option PyVal)
deriving DecidableEq, Repr

/-- One sheet of a workbook: its name and its columns in header order. -/
structure Sheet where
  sheetName : String
  cols : List Column
deriving DecidableEq, Repr

/-- A workbook is its sheets in file order. -/
abbrev Workbook := List Sheet

/-- Header row of a sheet: the column names in order. -/
def Sheet.header (s : Sheet) : List String :=
  s.cols.map Column.name

/-- The per-column masking step (src/cleaner.py lines 61-63): a column
whose name is in `pii_columns` (exact string membership, as Python
`c in pii_columns`) has every non-missing cell overwritten with
`replacement`; other columns are untouched. -/
def maskColumn (pii_columns : List String) (replacement : String) (col : Column) : Column :=
  if col.name ∈ pii_columns then
    { col with cells := col.cells.map (fun c => c.map (fun _ => PyVal.s replacement)) }
  else
    col

/-- Masking one sheet: every column is passed through `maskColumn`. -/
def maskSheet (pii_columns : List String) (replacement : String) (s : Sheet) : Sheet :=
  { s with cols := s.cols.map (maskColumn pii_columns replacement) }

/-- Masking a whole workbook, sheet by sheet in order. -/
def maskWorkbook (pii_columns : List String) (replacement : String) (wb : Workbook) : Workbook :=
  wb.map (maskSheet pii_columns replacement)

/-- Contents of a file on the local filesystem: a parseable workbook, or
raw bytes that no spreadsheet reader accepts. -/
inductive FileData where
  | workbook (wb : Workbook)
  | raw (bytes : String)
deriving DecidableEq, Repr

/-- The local filesystem: an association list from paths to contents,
first binding wins. -/
abbrev FS := List (String × FileData)

/-- Read the file at `p`, `none` when no file exists there. -/
def readFile (fs : FS) (p : String) : Option FileData :=
  match fs with
  | [] => none
  | (q, d) :: rest => if q = p then some d else readFile rest p

/-- Python `os.path.exists`. -/
def pathExists (fs : FS) (p : String) : Bool :=
  (readFile fs p).isSome

/-- Python `os.remove` (as a pure map update; removing a missing path is
a no-op here, and the source only removes paths it has checked exist). -/
def removeFile : FS → String → FS
  | [], _ => []
  | (q, d) :: rest, p => if q = p then removeFile rest p else (q, d) :: removeFile rest p

/-- Create or overwrite the file at `p`. -/
def writeFile (fs : FS) (p : String) (d : FileData) : FS :=
  (p, d) :: removeFile fs p

/-- Errors `mask_excel_file` can raise.  In the Python source these are
`FileNotFoundError` (missing input, and `os.rename` on a vanished
source), `ValueError` for a non-Excel extension (the spec's
`UnsupportedFormatError`), and whatever `pd.ExcelFile` raises on an
unparseable file. -/
inductive MaskError where
  | fileNotFoundError
  | unsupportedFormatError
  | readError
deriving DecidableEq, Repr

/-- The accepted extensions (compared against `ext.lower()`). -/
def acceptedExts : List String := [".xlsx", ".xlsm", ".xls"]

/-- `mask_excel_file` (src/cleaner.py lines 33-76) as a function of the
filesystem: check existence, check the extension, read the workbook, mask
every sheet, write the result to `<base>_anonymized.xlsx`, delete the
final output path if it already exists, rename the intermediate file onto
it, and return the final path.  The returned `FS` is the filesystem after
the call, whether it raised or returned. -/
def mask_excel_file (fs : FS) (input_file : String) (pii_columns : List String)
    (replacement : String) (output_ext : String) :
    Except MaskError String × FS :=
  if pathExists fs input_file = false then
    (.error .fileNotFoundError, fs)
  else
    let base := (splitext input_file).1
    let ext := (splitext input_file).2
    if strLower ext ∉ acceptedExts then
      (.error .unsupportedFormatError, fs)
    else
      let temp_output := base ++ "_anonymized.xlsx"
      let final_output := base ++ "_anonymized" ++ output_ext
      match readFile fs input_file with
      | some (.workbook wb) =>
        let updated := maskWorkbook pii_columns replacement wb
        let fs1 := writeFile fs temp_output (.workbook updated)
        let fs2 := if pathExists fs1 final_output then removeFile fs1 final_output else fs1
        match readFile fs2 temp_output with
        | some d => (.ok final_output, writeFile (removeFile fs2 temp_output) final_output d)
        | none => (.error .fileNotFoundError, fs2)
      | _ => (.error .readError, fs)

/-- Sample PII column `name`, with a missing cell in the second row. -/
def exNameCol : Column := ⟨"name", [some (.s "Alice"), none]⟩

/-- Sample non-PII column `notes`, with a missing cell in the second row. -/
def exNotesCol : Column := ⟨"notes", [some (.s "ok"), none]⟩

/-- Sample sheet of the raw dataset: the end-to-end scenario of the spec,
columns `id`, `name`, `phone`, `notes`. -/
def exSheet : Sheet :=
  ⟨"Responses",
   [⟨"id", [some (.i 1), some (.i 2)]⟩, exNameCol,
    ⟨"phone", [some (.s "555-1234"), some (.s "555-5678")]⟩, exNotesCol]⟩

/-- Sample raw dataset workbook. -/
def exWb : Workbook := [exSheet]

/-- Sample column whose name is a case variant of the PII field `phone`. -/
def exPhoneCaseCol : Column := ⟨"Phone", [some (.s "555-0000")]⟩

/-- Sample sheet holding only the case-variant column. -/
def exCaseSheet : Sheet := ⟨"Contacts", [exPhoneCaseCol]⟩

/-- Sample workbook exercising case-sensitive column matching. -/
def exWbCase : Workbook := [exCaseSheet]

/-- Sample filesystem for the case-sensitivity scenario. -/
def exFSCase : FS := [("contacts.xlsx", FileData.workbook exWbCase)]

/-- The filesystem after a successful run of the masker on `exFSCase`. -/
def exOutFSCase : FS :=
  [("contacts_anonymized.qa317", FileData.workbook (maskWorkbook ["name", "phone"] "PII Field" exWbCase)),
   ("contacts.xlsx", FileData.workbook exWbCase)]

/-- Sample PII field list. -/
def exPii : List String := ["name", "phone"]

/-- Sample filesystem holding only the raw dataset. -/
def exFS : FS := [("data.xlsx", FileData.workbook exWb)]

/-- The filesystem after a successful run of the masker on `exFS`. -/
def exOutFS : FS :=
  [("data_anonymized.qa317", FileData.workbook (maskWorkbook exPii "PII Field" exWb)),
   ("data.xlsx", FileData.workbook exWb)]

/-- Sample filesystem where the final output path is already occupied. -/
def exFSpre : FS :=
  [("data_anonymized.qa317", FileData.raw "stale"), ("data.xlsx", FileData.workbook exWb)]

/-- Sample filesystem holding a CSV file. -/
def exCsvFS : FS := [("data.csv", FileData.raw "id,name")]

/-- Sample schema sheet: header with case-variant column names, rows with
the `dataset` tag in three case variants of `pii`, one non-PII row, and a
duplicated name. -/
def exFrame : Frame :=
  ⟨["type", "Name", "DATASET"],
   [[.s "text", .s "phone", .s "PII"],
    [.s "text", .s "age", .s "demo"],
    [.s "text", .s "addr", .s "Pii"],
    [.s "text", .s "phone", .s "pii"]]⟩

/-! ### Helper lemmas: strings and paths -/

theorem strLower_data (s : String) : (strLower s).data = s.data.map Char.toLower := rfl

theorem mk_append_mk (a b : List Char) : String.mk a ++ String.mk b = String.mk (a ++ b) := rfl

theorem splitext_fst_append_snd (p : String) : (splitext p).1 ++ (splitext p).2 = p := by
  rcases h : splitextIdx p.data with _ | d <;>
    simp only [splitext, h]
  · exact String.append_empty p
  · rw [mk_append_mk, List.take_append_drop]

theorem str_append_cancel_left {a b c : String} (h : a ++ b = a ++ c) : b = c := by
  apply String.ext
  have hd := congrArg String.data h
  rw [String.data_append, String.data_append] at hd
  exact List.append_cancel_left hd

/-- Any extension passing the Excel check has at most 5 characters. -/
theorem ext_length_le (ext : String) (h : strLower ext ∈ acceptedExts) :
    ext.data.length ≤ 5 := by
  have hlen : (strLower ext).data.length = ext.data.length := by
    rw [strLower_data, List.length_map]
  simp only [acceptedExts, List.mem_cons, List.not_mem_nil, or_false] at h
  rcases h with h | h | h <;> rw [h] at hlen
  · have h5 : (".xlsx" : String).data.length = 5 := rfl
    omega
  · have h5 : (".xlsm" : String).data.length = 5 := rfl
    omega
  · have h5 : (".xls" : String).data.length = 4 := rfl
    omega

/-- The intermediate output path differs from the input path whenever the
input's extension passed the Excel check. -/
theorem temp_ne_input (p : String) (h : strLower (splitext p).2 ∈ acceptedExts) :
    (splitext p).1 ++ "_anonymized.xlsx" ≠ p := by
  intro he
  have hc : ("_anonymized.xlsx" : String) = (splitext p).2 :=
    str_append_cancel_left (he.trans (splitext_fst_append_snd p).symm)
  have hl := ext_length_le _ h
  rw [← hc] at hl
  have h16 : ("_anonymized.xlsx" : String).data.length = 16 := rfl
  omega

/-- The final output path differs from the input path whenever the input's
extension passed the Excel check, for every output suffix. -/
theorem final_ne_input (p oext : String) (h : strLower (splitext p).2 ∈ acceptedExts) :
    (splitext p).1 ++ "_anonymized" ++ oext ≠ p := by
  intro he
  have hd := congrArg String.data (he.trans (splitext_fst_append_snd p).symm)
  rw [String.data_append, String.data_append, String.data_append, List.append_assoc] at hd
  have h2 := List.append_cancel_left hd
  have hl := ext_length_le _ h
  rw [← h2, List.length_append] at hl
  have h11 : ("_anonymized" : String).data.length = 11 := rfl
  omega

/-- The intermediate and final output paths differ whenever the output
suffix is not `.xlsx`. -/
theorem temp_ne_final (base oext : String) (h : oext ≠ ".xlsx") :
    base ++ "_anonymized.xlsx" ≠ base ++ "_anonymized" ++ oext := by
  intro he
  have hd := congrArg String.data he
  rw [String.data_append, String.data_append, String.data_append, List.append_assoc] at hd
  have h2 := List.append_cancel_left hd
  have hsplit : ("_anonymized.xlsx" : String).data =
      ("_anonymized" : String).data ++ (".xlsx" : String).data := rfl
  rw [hsplit] at h2
  exact h (String.ext (List.append_cancel_left h2)).symm

/-! ### Helper lemmas: the filesystem model -/

theorem readFile_removeFile (fs : FS) (p q : String) :
    readFile (removeFile fs p) q = if q = p then none else readFile fs q := by
  induction fs with
  | nil => simp [removeFile, readFile]
  | cons e t ih =>
    obtain ⟨a, b⟩ := e
    by_cases hap : a = p <;> by_cases haq : a = q <;>
      simp [removeFile, readFile, hap, haq, ih] <;> simp_all [readFile]

theorem readFile_writeFile (fs : FS) (p q : String) (d : FileData) :
    readFile (writeFile fs p d) q = if p = q then some d else readFile fs q := by
  by_cases h : p = q <;>
    simp [writeFile, readFile, readFile_removeFile, h]
  intro hq
  exact absurd hq.symm h

/-! ### Inversion of a successful masking run -/

/-- Everything a successful run of `mask_excel_file` guarantees: the input
was an existing, parseable workbook with an accepted extension, the
returned path is `<base>_anonymized<output_ext>`, that path now holds the
masked workbook, and every other path except the intermediate one is
untouched. -/
theorem mask_excel_file_ok (fs : FS) (input_file : String) (pii_columns : List String)
    (replacement output_ext : String) (out : String) (fs' : FS)
    (hrun : mask_excel_file fs input_file pii_columns replacement output_ext =
      (.ok out, fs')) :
    ∃ wb, readFile fs input_file = some (.workbook wb) ∧
      strLower (splitext input_file).2 ∈ acceptedExts ∧
      out = (splitext input_file).1 ++ "_anonymized" ++ output_ext ∧
      readFile fs' out =
        some (.workbook (maskWorkbook pii_columns replacement wb)) ∧
      ∀ q, q ≠ (splitext input_file).1 ++ "_anonymized.xlsx" → q ≠ out →
        readFile fs' q = readFile fs q := by
  simp only [mask_excel_file] at hrun
  split at hrun
  · simp at hrun
  next h1 =>
    split at hrun
    next h2 => simp at hrun
    next h2 =>
      split at hrun
      next wb hread =>
        split at hrun
        next d heq2 =>
          rw [Prod.mk.injEq, Except.ok.injEq] at hrun
          obtain ⟨ho, hfs⟩ := hrun
          refine ⟨wb, hread, not_not.mp h2, ho.symm, ?_, ?_⟩
          · split at heq2
            · rw [readFile_removeFile] at heq2
              split at heq2
              · exact absurd heq2 (by simp)
              next htf =>
                rw [readFile_writeFile, if_pos rfl] at heq2
                injection heq2 with hd
                rw [← hfs, ← ho, ← hd, readFile_writeFile, if_pos rfl]
            next hpe =>
              rw [readFile_writeFile, if_pos rfl] at heq2
              injection heq2 with hd
              rw [← hfs, ← ho, ← hd, readFile_writeFile, if_pos rfl]
          · intro q hqt hqo
            have hqf : ¬ ((splitext input_file).1 ++ "_anonymized" ++ output_ext) = q :=
              fun h => hqo (h.symm.trans ho)
            rw [← hfs, readFile_writeFile, if_neg hqf, readFile_removeFile, if_neg hqt]
            split
            next hpe =>
              rw [readFile_removeFile, if_neg (fun h => hqf h.symm),
                readFile_writeFile, if_neg (fun h => hqt h.symm)]
            next hpe =>
              rw [readFile_writeFile, if_neg (fun h => hqt h.symm)]
        next heq2 => simp at hrun
      next hnm => simp at hrun

/-! ### Helper lemmas: the schema resolver -/

theorem colsLowerGet_aux (h : List String) (key : String) (acc : Option String) :
    List.foldl (fun acc c => if strLower c = key then some c else acc) acc h = none ↔
      acc = none ∧ ∀ c ∈ h, strLower c ≠ key := by
  induction h generalizing acc with
  | nil => simp
  | cons c t ih =>
    rw [List.foldl_cons, ih]
    by_cases hc : strLower c = key <;> simp [hc]

theorem colsLowerGet_eq_none_iff (header : List String) (key : String) :
    colsLowerGet header key = none ↔ ∀ c ∈ header, strLower c ≠ key := by
  rw [colsLowerGet, colsLowerGet_aux]
  simp

/-! ### Helper lemmas: masking preserves structure -/

theorem maskColumn_name (pii_columns : List String) (replacement : String) (c : Column) :
    (maskColumn pii_columns replacement c).name = c.name := by
  unfold maskColumn
  split <;> rfl

theorem maskSheet_sheetName (pii_columns : List String) (replacement : String) (s : Sheet) :
    (maskSheet pii_columns replacement s).sheetName = s.sheetName := rfl

theorem maskSheet_cols (pii_columns : List String) (replacement : String) (s : Sheet) :
    (maskSheet pii_columns replacement s).cols = s.cols.map (maskColumn pii_columns replacement) :=
  rfl

theorem maskSheet_header (pii_columns : List String) (replacement : String) (s : Sheet) :
    (maskSheet pii_columns replacement s).header = s.header := by
  rw [Sheet.header, Sheet.header, maskSheet_cols, List.map_map]
  exact List.map_congr_left (fun c _ => maskColumn_name pii_columns replacement c)

theorem maskColumn_cells_of_mem (pii_columns : List String) (replacement : String)
    (c : Column) (h : c.name ∈ pii_columns) :
    (maskColumn pii_columns replacement c).cells =
      c.cells.map (fun cell => cell.map (fun _ => PyVal.s replacement)) := by
  unfold maskColumn
  rw [if_pos h]

theorem maskColumn_of_not_mem (pii_columns : List String) (replacement : String)
    (c : Column) (h : c.name ∉ pii_columns) :
    maskColumn pii_columns replacement c = c := by
  unfold maskColumn
  rw [if_neg h]

/-! ### The claims -/

/-- C2: a field name appears in the collection returned by the Schema
Resolver iff its record's `dataset` value, coerced to string and
lower-cased, equals `"pii"`; the collected names are the `name` values of
the matching rows, in row order and without deduplication. -/
theorem pii_field_collection_filter (f : Frame) (dcol ncol : String)
    (hd : colsLowerGet f.header "dataset" = some dcol)
    (hn : colsLowerGet f.header "name" = some ncol) :
    ∃ l, get_pii_columns_from_xlsform f = .ok l ∧
      l = (f.rows.filter (fun r =>
            strLower (cellAt r ((f.header.indexOf? dcol).getD 0)).toStr = "pii")).map
          (fun r => cellAt r ((f.header.indexOf? ncol).getD 0)) ∧
      ∀ v, v ∈ l ↔ ∃ r ∈ f.rows,
        strLower (cellAt r ((f.header.indexOf? dcol).getD 0)).toStr = "pii" ∧
        cellAt r ((f.header.indexOf? ncol).getD 0) = v := by
  unfold get_pii_columns_from_xlsform
  rw [hd, hn]
  refine ⟨_, rfl, rfl, ?_⟩
  intro v
  simp only [List.mem_map, List.mem_filter, decide_eq_true_eq]
  constructor
  · rintro ⟨r, ⟨hr, hpred⟩, hv⟩
    exact ⟨r, hr, hpred, hv⟩
  · rintro ⟨r, hr, hpred, hv⟩
    exact ⟨r, ⟨hr, hpred⟩, hv⟩

/-- C2 witness: on the sample schema sheet the resolver matches `PII`,
`Pii` and `pii`, skips `demo`, and keeps the duplicated `phone`. -/
theorem pii_field_collection_filter_witness :
    colsLowerGet exFrame.header "dataset" = some "DATASET" ∧
    colsLowerGet exFrame.header "name" = some "Name" ∧
    (∃ l, get_pii_columns_from_xlsform exFrame = .ok l ∧
      l = (exFrame.rows.filter (fun r =>
            strLower (cellAt r ((exFrame.header.indexOf? "DATASET").getD 0)).toStr = "pii")).map
          (fun r => cellAt r ((exFrame.header.indexOf? "Name").getD 0)) ∧
      ∀ v, v ∈ l ↔ ∃ r ∈ exFrame.rows,
        strLower (cellAt r ((exFrame.header.indexOf? "DATASET").getD 0)).toStr = "pii" ∧
        cellAt r ((exFrame.header.indexOf? "Name").getD 0) = v) :=
  ⟨rfl, rfl, pii_field_collection_filter exFrame "DATASET" "Name" rfl rfl⟩

/-- C6: the Schema Resolver fails (with `SchemaError`) exactly when the
header has no column whose lower-cased name is `dataset`, or none whose
lower-cased name is `name`; the lookup is case-insensitive. -/
theorem schema_requires_dataset_and_name_columns (f : Frame) :
    (∃ e, get_pii_columns_from_xlsform f = .error e) ↔
      (∀ c ∈ f.header, strLower c ≠ "dataset") ∨ (∀ c ∈ f.header, strLower c ≠ "name") := by
  unfold get_pii_columns_from_xlsform
  rcases hd : colsLowerGet f.header "dataset" with _ | dcol <;>
    rcases hn : colsLowerGet f.header "name" with _ | ncol
  · simp only [hd, hn]
    exact ⟨fun _ => Or.inl ((colsLowerGet_eq_none_iff _ _).mp hd),
      fun _ => ⟨.missingColumns, trivial⟩⟩
  · simp only [hd, hn]
    exact ⟨fun _ => Or.inl ((colsLowerGet_eq_none_iff _ _).mp hd),
      fun _ => ⟨.missingColumns, trivial⟩⟩
  · simp only [hd, hn]
    exact ⟨fun _ => Or.inr ((colsLowerGet_eq_none_iff _ _).mp hn),
      fun _ => ⟨.missingColumns, trivial⟩⟩
  · simp only [hd, hn]
    simp only [reduceCtorEq, exists_false, false_iff]
    rintro (h | h)
    · have h0 := (colsLowerGet_eq_none_iff f.header "dataset").mpr h
      rw [hd] at h0
      exact Option.noConfusion h0
    · have h0 := (colsLowerGet_eq_none_iff f.header "name").mpr h
      rw [hn] at h0
      exact Option.noConfusion h0

/-- C1: after a successful masking run, every column of the output whose
name is in `pii_columns` has each originally non-missing cell equal to the
replacement token and each originally missing cell still missing. -/
theorem mask_pii_columns_total (fs : FS) (input_file : String) (pii_columns : List String)
    (replacement output_ext out : String) (fs' : FS) (wb : Workbook)
    (i j : Nat) (s : Sheet) (col : Column)
    (hread : readFile fs input_file = some (.workbook wb))
    (hrun : mask_excel_file fs input_file pii_columns replacement output_ext = (.ok out, fs'))
    (hs : wb[i]? = some s) (hc : s.cols[j]? = some col)
    (hpii : col.name ∈ pii_columns) :
    ∃ wb' s' col',
      readFile fs' out = some (.workbook wb') ∧
      wb'[i]? = some s' ∧
      s'.cols[j]? = some col' ∧
      col'.name = col.name ∧
      ∀ k : Nat, col'.cells[k]? =
        (col.cells[k]?).map
          (fun cell : Option PyVal => cell.map (fun _ => PyVal.s replacement)) := by
  obtain ⟨wb0, hread0, hext, hout, hcontent, hframe⟩ :=
    mask_excel_file_ok _ _ _ _ _ _ _ hrun
  rw [hread] at hread0
  have hwb : wb = wb0 := by
    injection hread0 with h
    injection h
  subst hwb
  refine ⟨maskWorkbook pii_columns replacement wb,
    maskSheet pii_columns replacement s,
    maskColumn pii_columns replacement col, hcontent, ?_, ?_, maskColumn_name _ _ _, ?_⟩
  · rw [maskWorkbook, List.getElem?_map, hs, Option.map_some']
  · rw [maskSheet_cols, List.getElem?_map, hc, Option.map_some']
  · intro k
    rw [maskColumn_cells_of_mem _ _ _ hpii, List.getElem?_map]

/-- C1 witness: masking the sample filesystem replaces `Alice` by the
replacement token in the `name` column and keeps the second row's
missing `name` missing. -/
theorem mask_pii_columns_total_witness :
    readFile exFS "data.xlsx" = some (.workbook exWb) ∧
    mask_excel_file exFS "data.xlsx" exPii "PII Field" ".qa317" =
      (.ok "data_anonymized.qa317", exOutFS) ∧
    exWb[0]? = some exSheet ∧
    exSheet.cols[1]? = some exNameCol ∧
    exNameCol.name ∈ exPii ∧
    (∃ wb' s' col',
      readFile exOutFS "data_anonymized.qa317" = some (.workbook wb') ∧
      wb'[0]? = some s' ∧
      s'.cols[1]? = some col' ∧
      col'.name = exNameCol.name ∧
      ∀ k : Nat, col'.cells[k]? =
        (exNameCol.cells[k]?).map
          (fun cell : Option PyVal => cell.map (fun _ => PyVal.s "PII Field"))) :=
  ⟨rfl, rfl, rfl, rfl, by decide,
    mask_pii_columns_total exFS "data.xlsx" exPii "PII Field" ".qa317"
      "data_anonymized.qa317" exOutFS exWb 0 1 exSheet exNameCol rfl rfl rfl rfl (by decide)⟩

/-- C3: after a successful masking run, every column of the output whose
name is not in `pii_columns` is identical to the corresponding input
column, empty cells included. -/
theorem mask_non_pii_columns_unchanged (fs : FS) (input_file : String)
    (pii_columns : List String) (replacement output_ext out : String) (fs' : FS)
    (wb : Workbook) (i j : Nat) (s : Sheet) (col : Column)
    (hread : readFile fs input_file = some (.workbook wb))
    (hrun : mask_excel_file fs input_file pii_columns replacement output_ext = (.ok out, fs'))
    (hs : wb[i]? = some s) (hc : s.cols[j]? = some col)
    (hpii : col.name ∉ pii_columns) :
    ∃ wb' s',
      readFile fs' out = some (.workbook wb') ∧
      wb'[i]? = some s' ∧
      s'.cols[j]? = some col := by
  obtain ⟨wb0, hread0, hext, hout, hcontent, hframe⟩ :=
    mask_excel_file_ok _ _ _ _ _ _ _ hrun
  rw [hread] at hread0
  have hwb : wb = wb0 := by
    injection hread0 with h
    injection h
  subst hwb
  refine ⟨maskWorkbook pii_columns replacement wb,
    maskSheet pii_columns replacement s, hcontent, ?_, ?_⟩
  · rw [maskWorkbook, List.getElem?_map, hs, Option.map_some']
  · rw [maskSheet_cols, List.getElem?_map, hc, Option.map_some',
      maskColumn_of_not_mem _ _ _ hpii]

/-- C3 witness: the `notes` column of the sample dataset survives masking
byte-identically. -/
theorem mask_non_pii_columns_unchanged_witness :
    readFile exFS "data.xlsx" = some (.workbook exWb) ∧
    mask_excel_file exFS "data.xlsx" exPii "PII Field" ".qa317" =
      (.ok "data_anonymized.qa317", exOutFS) ∧
    exWb[0]? = some exSheet ∧
    exSheet.cols[3]? = some exNotesCol ∧
    exNotesCol.name ∉ exPii ∧
    (∃ wb' s',
      readFile exOutFS "data_anonymized.qa317" = some (.workbook wb') ∧
      wb'[0]? = some s' ∧
      s'.cols[3]? = some exNotesCol) :=
  ⟨rfl, rfl, rfl, rfl, by decide,
    mask_non_pii_columns_unchanged exFS "data.xlsx" exPii "PII Field" ".qa317"
      "data_anonymized.qa317" exOutFS exWb 0 3 exSheet exNotesCol rfl rfl rfl rfl (by decide)⟩

/-- C10: the Dataset Masker matches sheet columns against `pii_columns`
by exact, case-sensitive equality: a column whose name is merely a case
variant of a PII field (its lower-casing matches a lower-cased PII field
but the name itself is not in the list) is left completely unchanged. -/
theorem mask_matches_pii_names_case_sensitively (fs : FS) (input_file : String)
    (pii_columns : List String) (replacement output_ext out : String) (fs' : FS)
    (wb : Workbook) (i j : Nat) (s : Sheet) (col : Column)
    (hread : readFile fs input_file = some (.workbook wb))
    (hrun : mask_excel_file fs input_file pii_columns replacement output_ext = (.ok out, fs'))
    (hs : wb[i]? = some s) (hc : s.cols[j]? = some col)
    (hcase : strLower col.name ∈ pii_columns.map strLower)
    (hpii : col.name ∉ pii_columns) :
    ∃ wb' s',
      readFile fs' out = some (.workbook wb') ∧
      wb'[i]? = some s' ∧
      s'.cols[j]? = some col := by
  obtain ⟨wb0, hread0, hext, hout, hcontent, hframe⟩ :=
    mask_excel_file_ok _ _ _ _ _ _ _ hrun
  rw [hread] at hread0
  have hwb : wb = wb0 := by
    injection hread0 with h
    injection h
  subst hwb
  refine ⟨maskWorkbook pii_columns replacement wb,
    maskSheet pii_columns replacement s, hcontent, ?_, ?_⟩
  · rw [maskWorkbook, List.getElem?_map, hs, Option.map_some']
  · rw [maskSheet_cols, List.getElem?_map, hc, Option.map_some',
      maskColumn_of_not_mem _ _ _ hpii]

/-- C10 witness: with PII fields `name`/`phone`, the column `Phone` (case
variant) is not masked. -/
theorem mask_matches_pii_names_case_sensitively_witness :
    readFile exFSCase "contacts.xlsx" = some (.workbook exWbCase) ∧
    mask_excel_file exFSCase "contacts.xlsx" exPii "PII Field" ".qa317" =
      (.ok "contacts_anonymized.qa317", exOutFSCase) ∧
    exWbCase[0]? = some exCaseSheet ∧
    exCaseSheet.cols[0]? = some exPhoneCaseCol ∧
    strLower exPhoneCaseCol.name ∈ exPii.map strLower ∧
    exPhoneCaseCol.name ∉ exPii ∧
    (∃ wb' s',
      readFile exOutFSCase "contacts_anonymized.qa317" = some (.workbook wb') ∧
      wb'[0]? = some s' ∧
      s'.cols[0]? = some exPhoneCaseCol) :=
  ⟨rfl, rfl, rfl, rfl, by decide, by decide,
    mask_matches_pii_names_case_sensitively exFSCase "contacts.xlsx" exPii "PII Field"
      ".qa317" "contacts_anonymized.qa317" exOutFSCase exWbCase 0 0
      exCaseSheet exPhoneCaseCol rfl rfl rfl rfl (by decide) (by decide)⟩

/-- C4: after a successful masking run the output workbook has the same
number of sheets, the same sheet names in the same order, and the same
headers in the same order as the input workbook. -/
theorem mask_preserves_workbook_structure (fs : FS) (input_file : String)
    (pii_columns : List String) (replacement output_ext out : String) (fs' : FS)
    (wb : Workbook)
    (hread : readFile fs input_file = some (.workbook wb))
    (hrun : mask_excel_file fs input_file pii_columns replacement output_ext = (.ok out, fs')) :
    ∃ wb',
      readFile fs' out = some (.workbook wb') ∧
      wb'.length = wb.length ∧
      wb'.map Sheet.sheetName = wb.map Sheet.sheetName ∧
      wb'.map Sheet.header = wb.map Sheet.header := by
  obtain ⟨wb0, hread0, hext, hout, hcontent, hframe⟩ :=
    mask_excel_file_ok _ _ _ _ _ _ _ hrun
  rw [hread] at hread0
  have hwb : wb = wb0 := by
    injection hread0 with h
    injection h
  subst hwb
  refine ⟨maskWorkbook pii_columns replacement wb, hcontent, ?_, ?_, ?_⟩
  · rw [maskWorkbook, List.length_map]
  · rw [maskWorkbook, List.map_map]
    exact List.map_congr_left (fun s _ => maskSheet_sheetName pii_columns replacement s)
  · rw [maskWorkbook, List.map_map]
    exact List.map_congr_left (fun s _ => maskSheet_header pii_columns replacement s)

/-- C4 witness: the sample run keeps the single sheet `Responses` and its
header `[id, name, phone, notes]`. -/
theorem mask_preserves_workbook_structure_witness :
    readFile exFS "data.xlsx" = some (.workbook exWb) ∧
    mask_excel_file exFS "data.xlsx" exPii "PII Field" ".qa317" =
      (.ok "data_anonymized.qa317", exOutFS) ∧
    (∃ wb',
      readFile exOutFS "data_anonymized.qa317" = some (.workbook wb') ∧
      wb'.length = exWb.length ∧
      wb'.map Sheet.sheetName = exWb.map Sheet.sheetName ∧
      wb'.map Sheet.header = exWb.map Sheet.header) :=
  ⟨rfl, rfl,
    mask_preserves_workbook_structure exFS "data.xlsx" exPii "PII Field" ".qa317"
      "data_anonymized.qa317" exOutFS exWb rfl rfl⟩

/-- C5 counterexample: with output suffix `.xlsx` the intermediate path
coincides with the final path, so the pre-delete of the final path removes
the freshly written intermediate file and the rename step raises; a valid
existing workbook input yields an error, not the final path. -/
theorem mask_output_suffix_xlsx_counterexample :
    readFile exFS "data.xlsx" = some (.workbook exWb) ∧
    (mask_excel_file exFS "data.xlsx" exPii "PII Field" ".xlsx").1 =
      .error .fileNotFoundError ∧
    (mask_excel_file exFS "data.xlsx" exPii "PII Field" ".xlsx").1 ≠
      .ok ((splitext "data.xlsx").1 ++ "_anonymized" ++ ".xlsx") := by
  refine ⟨rfl, rfl, ?_⟩
  intro h
  have h2 : (mask_excel_file exFS "data.xlsx" exPii "PII Field" ".xlsx").1 =
      .error .fileNotFoundError := rfl
  rw [h2] at h
  exact Except.noConfusion h

/-- C5 (amended): for every workbook input and every output suffix other
than `.xlsx` (in particular the default `.qa317`), the masker returns the
path `<input-base>_anonymized<output_suffix>` and that path afterwards
holds the masked workbook, even when a file already existed there (it is
deleted before the rename, giving overwrite semantics). -/
theorem mask_final_path_and_overwrite (fs : FS) (input_file : String)
    (pii_columns : List String) (replacement output_ext : String) (wb : Workbook)
    (hread : readFile fs input_file = some (.workbook wb))
    (hext : strLower (splitext input_file).2 ∈ acceptedExts)
    (hoe : output_ext ≠ ".xlsx") :
    (mask_excel_file fs input_file pii_columns replacement output_ext).1 =
      .ok ((splitext input_file).1 ++ "_anonymized" ++ output_ext) ∧
    readFile (mask_excel_file fs input_file pii_columns replacement output_ext).2
        ((splitext input_file).1 ++ "_anonymized" ++ output_ext) =
      some (.workbook (maskWorkbook pii_columns replacement wb)) := by
  have hex : pathExists fs input_file = true := by
    rw [pathExists, hread]
    rfl
  have htf := temp_ne_final (splitext input_file).1 output_ext hoe
  simp only [mask_excel_file, hread]
  rw [if_neg (by simp [hex]), if_neg (not_not_intro hext)]
  set td := FileData.workbook (maskWorkbook pii_columns replacement wb) with htd
  set temp := (splitext input_file).1 ++ "_anonymized.xlsx" with htemp
  set final := (splitext input_file).1 ++ "_anonymized" ++ output_ext with hfinal
  set fs1 := writeFile fs temp td with hfs1
  set fs2 := (if pathExists fs1 final = true then removeFile fs1 final else fs1) with hfs2
  have h5 : readFile fs2 temp = some td := by
    rw [hfs2]
    split
    · rw [readFile_removeFile, if_neg htf, readFile_writeFile, if_pos rfl]
    · rw [readFile_writeFile, if_pos rfl]
  rw [h5]
  refine ⟨rfl, ?_⟩
  show readFile (writeFile (removeFile fs2 temp) final td) final = some td
  rw [readFile_writeFile, if_pos rfl]

/-- C5 witness: on a filesystem where `data_anonymized.qa317` already
exists, masking `data.xlsx` still returns that path and overwrites the
stale file with the masked workbook. -/
theorem mask_final_path_and_overwrite_witness :
    readFile exFSpre "data.xlsx" = some (.workbook exWb) ∧
    strLower (splitext "data.xlsx").2 ∈ acceptedExts ∧
    (".qa317" : String) ≠ ".xlsx" ∧
    ((mask_excel_file exFSpre "data.xlsx" exPii "PII Field" ".qa317").1 =
      .ok ((splitext "data.xlsx").1 ++ "_anonymized" ++ ".qa317") ∧
    readFile (mask_excel_file exFSpre "data.xlsx" exPii "PII Field" ".qa317").2
        ((splitext "data.xlsx").1 ++ "_anonymized" ++ ".qa317") =
      some (.workbook (maskWorkbook exPii "PII Field" exWb))) :=
  ⟨rfl, by decide, by decide,
    mask_final_path_and_overwrite exFSpre "data.xlsx" exPii "PII Field" ".qa317" exWb rfl
      (by decide) (by decide)⟩

/-- C7: for an existing input whose (lower-cased) extension is not one of
`.xlsx`, `.xlsm`, `.xls`, the masker fails with the unsupported-format
error and the filesystem is returned unchanged: no intermediate or final
output file has been created. -/
theorem mask_unsupported_extension_error (fs : FS) (input_file : String)
    (pii_columns : List String) (replacement output_ext : String)
    (hex : pathExists fs input_file = true)
    (hbad : strLower (splitext input_file).2 ∉ acceptedExts) :
    mask_excel_file fs input_file pii_columns replacement output_ext =
      (.error .unsupportedFormatError, fs) := by
  simp only [mask_excel_file]
  rw [if_neg (by simp [hex]), if_pos hbad]

/-- C7 witness: masking an existing `data.csv` fails with the
unsupported-format error and creates nothing. -/
theorem mask_unsupported_extension_error_witness :
    pathExists exCsvFS "data.csv" = true ∧
    strLower (splitext "data.csv").2 ∉ acceptedExts ∧
    mask_excel_file exCsvFS "data.csv" exPii "PII Field" ".qa317" =
      (.error .unsupportedFormatError, exCsvFS) :=
  ⟨rfl, by decide,
    mask_unsupported_extension_error exCsvFS "data.csv" exPii "PII Field" ".qa317"
      rfl (by decide)⟩

/-- C9: the existence check precedes the extension check: for every
nonexistent input path, whatever its extension, the masker fails with the
not-found error (and the filesystem is unchanged). -/
theorem mask_missing_input_checked_first (fs : FS) (input_file : String)
    (pii_columns : List String) (replacement output_ext : String)
    (hne : pathExists fs input_file = false) :
    mask_excel_file fs input_file pii_columns replacement output_ext =
      (.error .fileNotFoundError, fs) := by
  simp only [mask_excel_file]
  rw [if_pos hne]

/-- C9 witness: a nonexistent `absent.csv`, despite its unsupported
extension, yields the not-found error, not the unsupported-format one. -/
theorem mask_missing_input_checked_first_witness :
    pathExists exFS "absent.csv" = false ∧
    mask_excel_file exFS "absent.csv" exPii "PII Field" ".qa317" =
      (.error .fileNotFoundError, exFS) :=
  ⟨rfl,
    mask_missing_input_checked_first exFS "absent.csv" exPii "PII Field" ".qa317" rfl⟩

/-- C8: the masker never mutates the input file: both output paths differ
from the input path whenever the extension passed the check, and after a
successful run the input path still holds its original contents. -/
theorem mask_never_touches_input (fs : FS) (input_file : String)
    (pii_columns : List String) (replacement output_ext : String)
    (hext : strLower (splitext input_file).2 ∈ acceptedExts) :
    (splitext input_file).1 ++ "_anonymized.xlsx" ≠ input_file ∧
    (splitext input_file).1 ++ "_anonymized" ++ output_ext ≠ input_file ∧
    ∀ out fs',
      mask_excel_file fs input_file pii_columns replacement output_ext = (.ok out, fs') →
      readFile fs' input_file = readFile fs input_file := by
  refine ⟨temp_ne_input input_file hext, final_ne_input input_file output_ext hext, ?_⟩
  intro out fs' hrun
  obtain ⟨wb, hread, hext2, hout, hcontent, hframe⟩ :=
    mask_excel_file_ok _ _ _ _ _ _ _ hrun
  refine hframe input_file (Ne.symm (temp_ne_input input_file hext)) ?_
  intro h
  rw [hout] at h
  exact final_ne_input input_file output_ext hext h.symm

/-- C8 witness: on the sample run the two output paths differ from
`data.xlsx` and the input workbook is unchanged afterwards. -/
theorem mask_never_touches_input_witness :
    strLower (splitext "data.xlsx").2 ∈ acceptedExts ∧
    ((splitext "data.xlsx").1 ++ "_anonymized.xlsx" ≠ "data.xlsx" ∧
    (splitext "data.xlsx").1 ++ "_anonymized" ++ ".qa317" ≠ "data.xlsx" ∧
    ∀ out fs',
      mask_excel_file exFS "data.xlsx" exPii "PII Field" ".qa317" = (.ok out, fs') →
      readFile fs' "data.xlsx" = readFile exFS "data.xlsx") :=
  ⟨by decide,
    mask_never_touches_input exFS "data.xlsx" exPii "PII Field" ".qa317" (by decide)⟩

end Cleaner

